import Mathlib

/-!
Verification of the AWS spot-instance provisioning core
(`master/internal/rm/agentrm/provisioner/aws_spot.go`).

Conventions of the shallow embedding:
* Go `time.Duration` and `time.Time` values are `Int` nanoseconds
  (`time.Second * 10 = 10 * 10^9` ns).  The values reached by this code
  (clock skews, launch offsets) are far from the `int64` range, so plain
  `Int` arithmetic is used; the overflow guards of Go's
  `time.Duration.Round` are nevertheless translated literally.
* Go pointers to strings (`*string`) become `Option String`; dereferencing
  a pointer becomes a `match` that faults (`Except.error`) on `none`,
  modelling a Go nil-pointer panic.
* Remote API answers are inputs of the embedded functions: each embedded
  operation takes the data that the corresponding remote call would have
  returned.  Transport failures of the remote calls simply propagate in the
  Go code (`return nil, err`) and are not modelled; the theorems speak about
  ticks whose remote calls succeeded.
* The container types `setOfSpotRequests` / `setOfStrings` are implemented
  in a file of the repository that is not part of the sources given here;
  they are modelled from the spec (section 4.1) as id-keyed lists with
  last-write-wins `add`, see `addReq` / `addString` below.
-/

namespace AwsSpot

/-- Source constant `launchTimeOffsetGrowth = time.Second * 10` (10 s in ns). -/
def launchTimeOffsetGrowth : Int := 10 * 10 ^ 9

/-- Source constant `spotRequestIDPrefix = "sir-"`. -/
def sirMarker : String := "sir-"

/-- The test `strings.HasPrefix(*instanceID, spotRequestIDPrefix)` of
`terminateSpot` (aws_spot.go line 235), expressed on the character lists of
the strings. -/
def hasSirMarker (s : String) : Bool := sirMarker.data.isPrefixOf s.data

/-- Overflow sentinel of Go `time.Duration.Round` (math.MinInt64 ns). -/
def minDuration : Int := -(2 ^ 63)

/-- Overflow sentinel of Go `time.Duration.Round` (math.MaxInt64 ns). -/
def maxDuration : Int := 2 ^ 63 - 1

/-- Go standard library `time.Duration.Round d m`: rounds `d` to the nearest
multiple of `m`, halves rounding away from zero.  Translated literally from
Go's `time` package (the helper `lessThanHalf x y` is inlined as `x + x < y`).
Go's `%` on integers truncates toward zero, i.e. it is `Int.tmod`. -/
def goDurationRound (d m : Int) : Int :=
  if m ≤ 0 then d
  else
    let r := Int.tmod d m
    if d < 0 then
      let r' := -r
      if r' + r' < m then d + r'
      else
        let d1 := d - m + r'
        if d1 < d then d1 else minDuration
    else
      if r + r < m then d - r
      else
        let d1 := d + m - r
        if d1 > d then d1 else maxDuration

/-- Source function `roundDurationUp` (aws_spot.go lines 460-467):
`rounded := d.Round(10 * time.Second); if rounded < d { rounded += 10s }`. -/
def roundDurationUp (d : Int) : Int :=
  let roundInterval : Int := 10 * 10 ^ 9
  let rounded := goDurationRound d roundInterval
  if rounded < d then rounded + roundInterval else rounded

/-- Source struct `spotRequest` (aws_spot.go lines 25-32).  `StatusCode`,
`StatusMessage` and `InstanceID` are `*string` in Go, hence `Option String`;
`CreationTime` is a `time.Time`, hence `Int` nanoseconds. -/
structure spotRequest where
  SpotRequestID : String
  State : String
  StatusCode : Option String
  StatusMessage : Option String
  InstanceID : Option String
  CreationTime : Int
deriving DecidableEq, Repr

/-- Modelled from the spec (section 4.1): the container `setOfSpotRequests`
is implemented outside the given sources.  It is a set keyed by
`SpotRequestID` with last-write-wins `add`; modelled as a list without
duplicate keys, `add` replacing in place when the key is present. -/
def addReq (s : List spotRequest) (r : spotRequest) : List spotRequest :=
  if s.any (fun x => x.SpotRequestID == r.SpotRequestID) then
    s.map (fun x => if x.SpotRequestID == r.SpotRequestID then r else x)
  else
    s ++ [r]

/-- Modelled from the spec (section 4.1): `delete` removes by ID if present. -/
def deleteReq (s : List spotRequest) (r : spotRequest) : List spotRequest :=
  s.filter (fun x => x.SpotRequestID != r.SpotRequestID)

/-- Modelled from the spec (section 4.1): `deleteIntersection other` removes
every element whose ID also appears in `other`. -/
def deleteIntersection (s other : List spotRequest) : List spotRequest :=
  s.filter (fun x => !(other.any (fun y => y.SpotRequestID == x.SpotRequestID)))

/-- Membership test of the request set, by identifier. -/
def containsId (s : List spotRequest) (id : String) : Bool :=
  s.any (fun x => x.SpotRequestID == id)

/-- Modelled from the spec (section 4.1): the container `setOfStrings` is
implemented outside the given sources; a string set with idempotent `add`,
modelled as a duplicate-free list. -/
def addString (s : List String) (x : String) : List String :=
  if x ∈ s then s else s ++ [x]

/-- The engine's mutable state, source struct `spotState`
(aws_spot.go lines 78-111). -/
structure SpotState where
  trackedReqs : List spotRequest
  approximateClockSkew : Int
  launchTimeOffset : Int
deriving DecidableEq, Repr

/-- Modelled from the spec (section 6): the shared instance-state
enumeration of the external `model` package, including the distinct
pending value `SpotRequestPendingAWS`. -/
inductive InstanceState where
  | SpotRequestPendingAWS
  | Running
  | Pending
  | Stopped
  | Terminated
  | ShuttingDown
  | Unknown
deriving DecidableEq, Repr

/-- Modelled from the spec (section 6): the external resource-handle type
`model.Instance` with identifier, launch time, display name and state. -/
structure Instance where
  ID : String
  LaunchTime : Int
  AgentName : String
  State : InstanceState
deriving DecidableEq, Repr

/-- An element of the `DescribeInstances` response: the fields of
`ec2.Instance` read by this core (`*inst.State.Name`, identifier,
launch time). -/
structure Ec2Inst where
  instanceId : String
  launchTime : Int
  stateName : String
deriving DecidableEq, Repr

/-- Modelled from the spec (section 6): the external conversion
`c.newInstances` from described EC2 instances to resource handles
(it lives in the on-demand provisioning path, outside the given sources).
Identifier and launch time are taken from the described instance and the
state string is mapped into the shared enumeration with a catch-all. -/
def newInstanceFromEc2 (i : Ec2Inst) : Instance :=
  { ID := i.instanceId
    LaunchTime := i.launchTime
    AgentName := i.instanceId
    State :=
      if i.stateName = "running" then .Running
      else if i.stateName = "pending" then .Pending
      else if i.stateName = "stopped" then .Stopped
      else if i.stateName = "terminated" then .Terminated
      else if i.stateName = "shutting-down" then .ShuttingDown
      else .Unknown }

/-- The placeholder handle synthesized for a tracked request that has no
resolved instance yet (aws_spot.go lines 413-418): ID and AgentName are the
request id, LaunchTime its creation time, state the pending value. -/
def pendingInstanceOf (r : spotRequest) : Instance :=
  { ID := r.SpotRequestID
    LaunchTime := r.CreationTime
    AgentName := r.SpotRequestID
    State := InstanceState.SpotRequestPendingAWS }

/-- The single pass over `c.spot.trackedReqs` of
`buildInstanceListFromTrackedReqs` (aws_spot.go lines 409-420): requests
with a resolved `InstanceID` contribute the id to the `runningSpotInstanceIds`
string set, the others append a placeholder handle. -/
def splitTracked (acc : List String × List Instance) :
    List spotRequest → List String × List Instance
  | [] => acc
  | r :: rest =>
    match r.InstanceID with
    | some iid => splitTracked (addString acc.1 iid, acc.2) rest
    | none => splitTracked (acc.1, acc.2 ++ [pendingInstanceOf r]) rest

/-- The list of instance ids queried by `describeInstancesByID` inside
`buildInstanceListFromTrackedReqs`. -/
def runningIdsOf (tracked : List spotRequest) : List String :=
  (splitTracked ([], []) tracked).1

/-- The filter of aws_spot.go lines 437-442: keep instances whose state is
neither "terminated" nor "shutting-down". -/
def nonTerminalEc2 (i : Ec2Inst) : Bool :=
  i.stateName != "terminated" && i.stateName != "shutting-down"

/-- Source function `buildInstanceListFromTrackedReqs`
(aws_spot.go lines 403-458).  `describe` stands for the remote call
`describeInstancesByID`: it receives the queried id list and yields the
remote's response.  Output: converted non-terminal real instances followed
by the placeholder handles. -/
def buildInstanceListFromTrackedReqs (tracked : List spotRequest)
    (describe : List String → List Ec2Inst) : List Instance :=
  let split := splitTracked ([], []) tracked
  let instancesToReturn := describe split.1
  let nonTerminalInstances := instancesToReturn.filter nonTerminalEc2
  let realInstances := nonTerminalInstances.map newInstanceFromEc2
  realInstances ++ split.2

/-- Dereference of a Go `*string`: faults (nil-pointer panic) on `nil`. -/
def derefStr : Option String → Except String String
  | some s => Except.ok s
  | none => Except.error "nil StatusCode"

/-- The classification loop over the active-request response
(aws_spot.go lines 138-146): `switch *req.StatusCode`, collecting
"capacity-not-available" / "price-too-low" requests into the
user-attention set.  The dereference faults when `StatusCode` is nil. -/
def classifyActiveM (l : List spotRequest) (acc : List spotRequest) :
    Except String (List spotRequest) :=
  match l with
  | [] => Except.ok acc
  | r :: rest =>
    match r.StatusCode with
    | none => Except.error "nil StatusCode"
    | some code =>
      classifyActiveM rest
        (if code = "capacity-not-available" ∨ code = "price-too-low"
         then addReq acc r else acc)

/-- Accumulator of the loop over the targeted by-identifier lookup response
(aws_spot.go lines 162-176). -/
structure ByIdAcc where
  missing : List spotRequest
  tracked : List spotRequest
  notify : List spotRequest
  numNoLongerTracked : Nat
deriving DecidableEq, Repr

/-- The loop over the by-identifier lookup response (aws_spot.go lines
163-176): delete the request from the "still missing" set; if its state is
neither "active" nor "open", delete it from the tracked set and count it;
`switch *req.StatusCode` collects "bad-parameters" /
"constraint-not-fulfillable" / "limit-exceeded" requests for user
attention (faulting on a nil `StatusCode`). -/
def processByIdM (l : List spotRequest) (acc : ByIdAcc) :
    Except String ByIdAcc :=
  match l with
  | [] => Except.ok acc
  | r :: rest =>
    let missing := deleteReq acc.missing r
    let stillLive := r.State = "active" ∨ r.State = "open"
    let tracked := if stillLive then acc.tracked else deleteReq acc.tracked r
    let num := if stillLive then acc.numNoLongerTracked
               else acc.numNoLongerTracked + 1
    match r.StatusCode with
    | none => Except.error "nil StatusCode"
    | some code =>
      processByIdM rest
        { missing := missing
          tracked := tracked
          notify :=
            if code = "bad-parameters" ∨ code = "constraint-not-fulfillable"
                ∨ code = "limit-exceeded"
            then addReq acc.notify r else acc.notify
          numNoLongerTracked := num }

/-- Insertion into a list sorted by `CreationTime`. -/
def insertByCreation (r : spotRequest) : List spotRequest → List spotRequest
  | [] => [r]
  | x :: xs =>
    if r.CreationTime ≤ x.CreationTime then r :: x :: xs
    else x :: insertByCreation r xs

/-- Modelled from the spec (section 4.1): `asListInChronologicalOrder` of the
container `setOfSpotRequests` (implemented outside the given sources) sorts
by `CreationTime`. -/
def sortByCreation : List spotRequest → List spotRequest
  | [] => []
  | x :: xs => insertByCreation x (sortByCreation xs)

/-- The diagnostic-emission loop (aws_spot.go lines 178-184): for every
user-attention request it dereferences `*req.StatusCode` and
`*req.StatusMessage`, faulting if either is nil. -/
def emitNotifyM (l : List spotRequest) : Except String Unit :=
  match l with
  | [] => Except.ok ()
  | r :: rest =>
    match r.StatusCode with
    | none => Except.error "nil StatusCode"
    | some _ =>
      match r.StatusMessage with
      | none => Except.error "nil StatusMessage"
      | some _ => emitNotifyM rest

/-- The "tracked but not returned as active" working set
(aws_spot.go lines 152-153): first the active response is unioned into the
tracked set (line 127-129), then the intersection with the active response
is removed from a copy of the tracked set. -/
def missingAfterActive (st : SpotState) (activeReqs : List spotRequest) :
    List spotRequest :=
  deleteIntersection (activeReqs.foldl addReq st.trackedReqs) activeReqs

/-- What the targeted lookup `listSpotRequestsByID` returns to the tick:
when the queried id list is empty the source returns an empty set without a
remote call (aws_spot.go lines 715-718), otherwise the remote's response
`byIdReqs`. -/
def byIdReturned (st : SpotState) (activeReqs byIdReqs : List spotRequest) :
    List spotRequest :=
  if (missingAfterActive st activeReqs).isEmpty then [] else byIdReqs

/-- Source function `listSpot` (aws_spot.go lines 120-224), the
reconciliation tick.  `activeReqs` is the response of
`listActiveSpotInstanceRequests`, `byIdReqs` the response of the targeted
`listSpotRequestsByID` lookup, `describe` the `describeInstancesByID`
call used when building the output list.  The canceled-but-instance-running
cleanup (lines 199-217) only issues remote termination calls and logs; it
touches neither the tracked set nor the output, so it contributes no state
here.  Tag application (lines 131-136) is likewise best-effort and
state-free.  A nil `StatusCode`/`StatusMessage` dereference faults the
whole tick, modelling the Go panic. -/
def listSpot (st : SpotState) (activeReqs byIdReqs : List spotRequest)
    (describe : List String → List Ec2Inst) :
    Except String (SpotState × List Instance) :=
  let tracked1 := activeReqs.foldl addReq st.trackedReqs
  match classifyActiveM activeReqs [] with
  | Except.error e => Except.error e
  | Except.ok notify1 =>
    match processByIdM (byIdReturned st activeReqs byIdReqs)
        { missing := missingAfterActive st activeReqs
          tracked := tracked1
          notify := notify1
          numNoLongerTracked := 0 } with
    | Except.error e => Except.error e
    | Except.ok acc =>
      match emitNotifyM (sortByCreation acc.notify) with
      | Except.error e => Except.error e
      | Except.ok _ =>
        Except.ok ({ st with trackedReqs := acc.tracked },
          buildInstanceListFromTrackedReqs acc.tracked describe)

/-- Outcome of one `createSpotInstanceRequest` attempt: success, an AWS
error carrying its code (`awserr.Error`), or an error that is not an
`awserr.Error`. -/
inductive Outcome where
  | success
  | awsErr (code : String)
  | otherErr (msg : String)
deriving DecidableEq, Repr

/-- Result of `createSpotInstanceRequestsCorrectingForClockSkew`: success,
or failure surfacing an error. -/
inductive CsirResult where
  | ok
  | failed (e : Outcome)
deriving DecidableEq, Repr

/-- The per-iteration state update of the retry wrapper
(aws_spot.go lines 494-499): on the AWS error code "InvalidTime",
`launchTimeOffset` grows by `launchTimeOffsetGrowth`; otherwise the state
is unchanged. -/
def csirStep (st : SpotState) (code : String) : SpotState :=
  if code = "InvalidTime" then
    { st with launchTimeOffset := st.launchTimeOffset + launchTimeOffsetGrowth }
  else st

/-- The retry loop of `createSpotInstanceRequestsCorrectingForClockSkew`
(aws_spot.go lines 481-505): `for numRetries := 0; numRetries <= maxRetries;
numRetries++`.  `attempts n` is the outcome of the n-th creation attempt,
`remaining` the number of loop iterations still allowed, `lastErr` the error
of the previous attempt (returned when the loop exhausts, line 505).
The returned `Nat` counts the creation attempts performed.  A non-AWS error
returns immediately (lines 500-503); an AWS error — "InvalidTime" or any
other code — falls through to the next iteration. -/
def csirAux (attempts : Nat → Outcome) :
    Nat → Nat → Outcome → SpotState → SpotState × CsirResult × Nat
  | 0, _, lastErr, st => (st, CsirResult.failed lastErr, 0)
  | remaining + 1, idx, _, st =>
    match attempts idx with
    | Outcome.success => (st, CsirResult.ok, 1)
    | Outcome.awsErr code =>
      let next := csirAux attempts remaining (idx + 1)
        (Outcome.awsErr code) (csirStep st code)
      (next.1, next.2.1, next.2.2 + 1)
    | Outcome.otherErr m => (st, CsirResult.failed (Outcome.otherErr m), 1)

/-- Entry point of the retry wrapper: `maxRetries := 5` and the loop
condition `numRetries <= maxRetries` allow 6 iterations. -/
def csir (attempts : Nat → Outcome) (st : SpotState) :
    SpotState × CsirResult × Nat :=
  csirAux attempts 6 0 Outcome.success st

/-- The validFrom expression of `createSpotInstanceRequest`
(aws_spot.go line 520):
`time.Now().UTC().Add(c.spot.approximateClockSkew).Add(launchTimeOffset)`,
where `launchTimeOffset` is the function's duration argument. -/
def createValidFrom (now approximateClockSkew launchTimeOffsetArg : Int) : Int :=
  now + approximateClockSkew + launchTimeOffsetArg

/-- The validity-window start submitted by one attempt of the retry wrapper
(aws_spot.go lines 483-484): the wrapper computes
`offset := c.spot.approximateClockSkew + c.spot.launchTimeOffset` and passes
it as the `launchTimeOffset` argument of `createSpotInstanceRequest`. -/
def attemptValidFrom (st : SpotState) (now : Int) : Int :=
  createValidFrom now st.approximateClockSkew
    (st.approximateClockSkew + st.launchTimeOffset)

/-- Outcome of the calibration `createSpotInstanceRequest` call in
`attemptToApproximateClockSkew`: failure, or success carrying the
AWS-assigned `CreateTime`. -/
inductive CreateOutcome where
  | fail
  | ok (awsCreateTime : Int)
deriving DecidableEq, Repr

/-- Outcome of one `terminateSpotInstanceRequests` call of the calibration
cleanup loop. -/
inductive TermOutcome where
  | ok
  | awsErr (code : String)
  | otherErr (msg : String)
deriving DecidableEq, Repr

/-- How the calibration cleanup loop ends. -/
inductive CleanupRes where
  | success
  | aborted
  | exhausted
deriving DecidableEq, Repr

/-- The cleanup loop of `attemptToApproximateClockSkew`
(aws_spot.go lines 373-396): retry while the AWS error code is
"InvalidSpotInstanceRequestID.NotFound"; break on success; return from the
whole function on any other AWS error or on a non-AWS error.  `terms` lists
the outcomes of the successive cancellation calls; `exhausted` stands for a
run longer than the modelled outcome list (the Go loop would keep going). -/
def cleanupLoop : List TermOutcome → CleanupRes
  | [] => CleanupRes.exhausted
  | TermOutcome.ok :: _ => CleanupRes.success
  | TermOutcome.awsErr code :: rest =>
    if code = "InvalidSpotInstanceRequestID.NotFound" then cleanupLoop rest
    else CleanupRes.aborted
  | TermOutcome.otherErr _ :: _ => CleanupRes.aborted

/-- Source function `attemptToApproximateClockSkew`
(aws_spot.go lines 356-399).  `localCreateTime` is the recorded local
`time.Now()`, `create` the outcome of the calibration request creation.
The skew assignment (lines 397-398) sits after the cleanup loop, so it is
reached only when the loop breaks via a successful cancellation; the abort
returns (lines 389, 393) leave the state untouched, as does a failed
creation (line 367). -/
def attemptToApproximateClockSkew (st : SpotState) (localCreateTime : Int)
    (create : CreateOutcome) (terms : List TermOutcome) : SpotState :=
  match create with
  | CreateOutcome.fail => st
  | CreateOutcome.ok awsCreateTime =>
    match cleanupLoop terms with
    | CleanupRes.success =>
      { st with approximateClockSkew :=
          roundDurationUp (awsCreateTime - localCreateTime) }
    | _ => st

/-- A remote call issued by `terminateSpot`: either the resource-termination
path (`terminateOnDemand`, line 258) or the spot-request cancellation
(`terminateSpotInstanceRequests`, line 261). -/
inductive SpotEffect where
  | terminateInstances (ids : List String)
  | cancelSpotRequests (ids : List String)
deriving DecidableEq, Repr

/-- The loop of `terminateSpot` over its input (aws_spot.go lines 234-241):
identifiers bearing the "sir-" marker go into the pending-spot-request
string set (second component), the rest into the instance string set
(first component). -/
def partitionIds (acc : List String × List String) :
    List String → List String × List String
  | [] => acc
  | i :: rest =>
    if hasSirMarker i then partitionIds (acc.1, addString acc.2 i) rest
    else partitionIds (addString acc.1 i, acc.2) rest

/-- Source function `terminateSpot` (aws_spot.go lines 226-275), rendered as
the list of remote calls it issues.  Empty input returns immediately
(lines 227-229).  One pass partitions the ids by the "sir-" marker into the
two string sets; `terminateOnDemand` is called only when the instance set is
non-empty (line 253), and `terminateSpotInstanceRequests` performs no remote
call on an empty id list (lines 765-767). -/
def terminateSpot (instanceIDs : List String) : List SpotEffect :=
  if instanceIDs.isEmpty then []
  else
    let sets := partitionIds ([], []) instanceIDs
    (if sets.1.length > 0 then [SpotEffect.terminateInstances sets.1] else [])
      ++ (if sets.2.isEmpty then [] else [SpotEffect.cancelSpotRequests sets.2])

/-! ## Theorems -/

/-- Negating a dividend negates Go-style truncated remainder. -/
theorem tmod_neg_dividend (a b : Int) : Int.tmod (-a) b = -Int.tmod a b := by
  rw [Int.tmod_def, Int.tmod_def, Int.neg_tdiv]; ring

/-- `roundDurationUp` computed in closed form: it is the ceiling of `d` to
the next multiple of the 10-second interval, i.e. `m * tdiv d m` plus one
interval exactly when the truncated remainder is positive. -/
theorem roundDurationUp_closed (d : Int) :
    roundDurationUp d =
      10 * 10 ^ 9 * d.tdiv (10 * 10 ^ 9) +
        (if 0 < Int.tmod d (10 * 10 ^ 9) then 10 * 10 ^ 9 else 0) := by
  have hm : (0 : Int) < 10 * 10 ^ 9 := by norm_num
  have hdecomp := Int.tmod_add_tdiv d (10 * 10 ^ 9)
  have hub : Int.tmod d (10 * 10 ^ 9) < 10 * 10 ^ 9 := Int.tmod_lt_of_pos d hm
  have hlb : -(10 * 10 ^ 9) < Int.tmod d (10 * 10 ^ 9) := by
    have h2 : Int.tmod (-d) (10 * 10 ^ 9) < 10 * 10 ^ 9 :=
      Int.tmod_lt_of_pos (-d) hm
    rw [tmod_neg_dividend] at h2; omega
  rcases le_or_lt 0 d with hd | hd
  · have hsgn : 0 ≤ Int.tmod d (10 * 10 ^ 9) := Int.tmod_nonneg _ hd
    simp only [roundDurationUp, goDurationRound, minDuration, maxDuration]
    generalize hq : d.tdiv (10 * 10 ^ 9) = q at *
    generalize hR : Int.tmod d (10 * 10 ^ 9) = R at *
    split_ifs <;> omega
  · have hsgn : Int.tmod d (10 * 10 ^ 9) ≤ 0 := by
      have h3 : 0 ≤ Int.tmod (-d) (10 * 10 ^ 9) :=
        Int.tmod_nonneg _ (by omega)
      rw [tmod_neg_dividend] at h3; omega
    simp only [roundDurationUp, goDurationRound, minDuration, maxDuration]
    generalize hq : d.tdiv (10 * 10 ^ 9) = q at *
    generalize hR : Int.tmod d (10 * 10 ^ 9) = R at *
    split_ifs <;> omega

/-- Claim C6 (amended): `roundDurationUp` rounds up toward positive
infinity: the result is the smallest multiple of the coarse 10-second
interval that is greater than or equal to the measurement.  In particular
the result never under-corrects (`d ≤ roundDurationUp d`), but for a
negative measurement the rounding moves toward zero, not away from it. -/
theorem roundDurationUp_is_ceiling (d : Int) :
    d ≤ roundDurationUp d ∧ roundDurationUp d < d + 10 * 10 ^ 9 ∧
      ∃ k : Int, roundDurationUp d = 10 * 10 ^ 9 * k := by
  have hm : (0 : Int) < 10 * 10 ^ 9 := by norm_num
  have hdecomp := Int.tmod_add_tdiv d (10 * 10 ^ 9)
  have hub : Int.tmod d (10 * 10 ^ 9) < 10 * 10 ^ 9 := Int.tmod_lt_of_pos d hm
  have hlb : -(10 * 10 ^ 9) < Int.tmod d (10 * 10 ^ 9) := by
    have h2 : Int.tmod (-d) (10 * 10 ^ 9) < 10 * 10 ^ 9 :=
      Int.tmod_lt_of_pos (-d) hm
    rw [tmod_neg_dividend] at h2; omega
  rw [roundDurationUp_closed d]
  refine ⟨?_, ?_, ?_⟩
  · split_ifs <;> omega
  · split_ifs <;> omega
  · split_ifs with h
    · exact ⟨d.tdiv (10 * 10 ^ 9) + 1, by ring⟩
    · exact ⟨d.tdiv (10 * 10 ^ 9), by ring⟩

/-- Claim C6, counterexample to the claim as stated: the measurement
-7 s is rounded to 0, which is strictly closer to zero than the
measurement itself and is not the away-from-zero value -10 s the claim
prescribes. -/
theorem roundDurationUp_negative_toward_zero :
    roundDurationUp (-(7 * 10 ^ 9)) = 0 ∧
    (roundDurationUp (-(7 * 10 ^ 9))).natAbs < (-(7 * 10 ^ 9) : Int).natAbs ∧
    (roundDurationUp (-(7 * 10 ^ 9)) == -(10 * 10 ^ 9)) = false := by
  decide

/-- Claim C1: the validity-window start submitted by an attempt of the
launch-offset retry wrapper.  The wrapper passes
`approximateClockSkew + launchTimeOffset` as the offset argument and
`createSpotInstanceRequest` adds `approximateClockSkew` once more, so the
submitted time is `now + 2 * approximateClockSkew + launchTimeOffset` —
the skew is added twice, not once as the claim (and the code's own
`spotState` comment) state.  With skew = offset = 10 s the code submits
`now + 30 s` where the claim prescribes `now + 20 s`. -/
theorem attemptValidFrom_adds_skew_twice :
    (∀ st now, attemptValidFrom st now
        = now + 2 * st.approximateClockSkew + st.launchTimeOffset) ∧
    attemptValidFrom ⟨[], 10 * 10 ^ 9, 10 * 10 ^ 9⟩ 0 = 30 * 10 ^ 9 ∧
    ((0 : Int) + 10 * 10 ^ 9 + 10 * 10 ^ 9 = 20 * 10 ^ 9) ∧
    20 * 10 ^ 9 < attemptValidFrom ⟨[], 10 * 10 ^ 9, 10 * 10 ^ 9⟩ 0 := by
  refine ⟨fun st now => ?_, by decide, by decide, by decide⟩
  unfold attemptValidFrom createValidFrom; ring

/-- The retry loop performs at most as many creation attempts as it has
iterations left. -/
theorem csirAux_attempts_le (attempts : Nat → Outcome) (remaining : Nat) :
    ∀ idx lastErr st,
      (csirAux attempts remaining idx lastErr st).2.2 ≤ remaining := by
  induction remaining with
  | zero => intro idx lastErr st; simp [csirAux]
  | succ n ih =>
    intro idx lastErr st
    simp only [csirAux]
    cases attempts idx with
    | success => simp
    | awsErr code =>
      simpa using Nat.succ_le_succ (ih (idx + 1) (Outcome.awsErr code)
        (csirStep st code))
    | otherErr m => simp

/-- Claim C3 (amended): every invocation of
`createSpotInstanceRequestsCorrectingForClockSkew` performs at most 6
creation attempts — the loop `for numRetries := 0; numRetries <= 5` runs
one initial attempt plus 5 retries, i.e. one more than the claimed 5. -/
theorem csir_at_most_six_attempts (attempts : Nat → Outcome) (st : SpotState) :
    (csir attempts st).2.2 ≤ 6 :=
  csirAux_attempts_le attempts 6 0 Outcome.success st

/-- Claim C3, counterexample to the claim as stated: when every attempt is
rejected with "InvalidTime", the wrapper performs 6 creation attempts,
exceeding the claimed bound of 5. -/
theorem csir_six_attempts_happen :
    (csir (fun _ => Outcome.awsErr "InvalidTime") ⟨[], 0, 10 * 10 ^ 9⟩).2.2 = 6 ∧
    5 < (csir (fun _ => Outcome.awsErr "InvalidTime") ⟨[], 0, 10 * 10 ^ 9⟩).2.2 := by
  decide

/-- Claim C4 (amended): only an error that is not an `awserr.Error` makes
the retry loop return immediately with that error after the failing
attempt; an AWS-classified error whose code is not "InvalidTime" does not
abort the loop — the next iteration proceeds with unchanged state. -/
theorem csirAux_abort_behavior :
    (∀ (attempts : Nat → Outcome) remaining idx lastErr st m,
      attempts idx = Outcome.otherErr m →
      csirAux attempts (remaining + 1) idx lastErr st
        = (st, CsirResult.failed (Outcome.otherErr m), 1)) ∧
    (∀ (attempts : Nat → Outcome) remaining idx lastErr st code,
      attempts idx = Outcome.awsErr code → code ≠ "InvalidTime" →
      csirAux attempts (remaining + 1) idx lastErr st
        = ((csirAux attempts remaining (idx + 1) (Outcome.awsErr code) st).1,
           (csirAux attempts remaining (idx + 1) (Outcome.awsErr code) st).2.1,
           (csirAux attempts remaining (idx + 1) (Outcome.awsErr code) st).2.2 + 1)) := by
  constructor
  · intro attempts remaining idx lastErr st m h
    simp [csirAux, h]
  · intro attempts remaining idx lastErr st code h hc
    simp [csirAux, h, csirStep, hc]

/-- Claim C4, witness: a run whose first attempt fails with a non-AWS
error returns that error after exactly one attempt, and a run whose first
attempt fails with the AWS code "RequestLimitExceeded" continues into the
next iteration. -/
theorem csirAux_abort_behavior_witness :
    csirAux (fun _ => Outcome.otherErr "boom") 6 0 Outcome.success ⟨[], 0, 0⟩
      = (⟨[], 0, 0⟩, CsirResult.failed (Outcome.otherErr "boom"), 1) ∧
    csirAux (fun _ => Outcome.awsErr "RequestLimitExceeded") 6 0
        Outcome.success ⟨[], 0, 0⟩
      = ((csirAux (fun _ => Outcome.awsErr "RequestLimitExceeded") 5 1
            (Outcome.awsErr "RequestLimitExceeded") ⟨[], 0, 0⟩).1,
         (csirAux (fun _ => Outcome.awsErr "RequestLimitExceeded") 5 1
            (Outcome.awsErr "RequestLimitExceeded") ⟨[], 0, 0⟩).2.1,
         (csirAux (fun _ => Outcome.awsErr "RequestLimitExceeded") 5 1
            (Outcome.awsErr "RequestLimitExceeded") ⟨[], 0, 0⟩).2.2 + 1) :=
  ⟨csirAux_abort_behavior.1 (fun _ => Outcome.otherErr "boom") 5 0
      Outcome.success ⟨[], 0, 0⟩ "boom" rfl,
   csirAux_abort_behavior.2 (fun _ => Outcome.awsErr "RequestLimitExceeded") 5 0
      Outcome.success ⟨[], 0, 0⟩ "RequestLimitExceeded" rfl
      (by decide)⟩

/-- Claim C4, counterexample to the claim as stated: the first attempt
fails with the remote (AWS) error "RequestLimitExceeded", which is not the
validity-window rejection, yet the loop performs a second attempt and the
call returns success — it neither stops nor surfaces that error. -/
theorem csir_aws_error_is_retried :
    csir (fun n => if n = 0 then Outcome.awsErr "RequestLimitExceeded"
                   else Outcome.success) ⟨[], 0, 10 * 10 ^ 9⟩
      = (⟨[], 0, 10 * 10 ^ 9⟩, CsirResult.ok, 2) ∧
    ("RequestLimitExceeded" == "InvalidTime") = false := by
  decide

/-- Claim C9 (amended): after a successful creation of the calibration
request, `approximateClockSkew` is set to the rounded-up measured skew
only when the cleanup loop ends in a successful cancellation; when the
cleanup aborts (a non-NotFound AWS error, or a non-AWS error) the function
returns with the state untouched, and a failed creation likewise leaves
the state unchanged. -/
theorem attemptToApproximateClockSkew_behavior :
    (∀ st t0 t1 terms,
      (attemptToApproximateClockSkew st t0 (CreateOutcome.ok t1) terms).approximateClockSkew
        = if cleanupLoop terms = CleanupRes.success
          then roundDurationUp (t1 - t0) else st.approximateClockSkew) ∧
    (∀ st t0 terms,
      attemptToApproximateClockSkew st t0 CreateOutcome.fail terms = st) := by
  constructor
  · intro st t0 t1 terms
    unfold attemptToApproximateClockSkew
    cases h : cleanupLoop terms <;> simp [h]
  · intro st t0 terms; rfl

/-- Claim C9, counterexample to the claim as stated: the calibration
request is created successfully (remote creation time 15 s after the local
clock), but the first cancellation attempt fails with the AWS error
"InternalError", aborting cleanup — and `approximateClockSkew` remains 0
instead of the rounded-up measurement 20 s the claim prescribes. -/
theorem clockSkew_lost_when_cleanup_aborts :
    (attemptToApproximateClockSkew ⟨[], 0, 0⟩ 0 (CreateOutcome.ok (15 * 10 ^ 9))
        [TermOutcome.awsErr "InternalError"]).approximateClockSkew = 0 ∧
    roundDurationUp (15 * 10 ^ 9 - 0) = 20 * 10 ^ 9 ∧
    (0 : Int) < 20 * 10 ^ 9 := by
  decide

/-- Claim C10: the reconciliation tick is not total over remote responses —
on a response whose request carries no status code (`StatusCode` nil) the
status-code classification dereferences the nil pointer and the tick
faults instead of completing.  Here the active-request response contains a
single open request with `StatusCode = none` and the tick faults. -/
theorem listSpot_faults_on_nil_statuscode :
    listSpot ⟨[], 0, 0⟩ [⟨"sir-9", "open", none, none, none, 0⟩] []
      (fun _ => []) = Except.error "nil StatusCode" := by
  rfl

/-- The retry loop's final `launchTimeOffset`: the initial offset plus the
growth constant for each performed attempt whose outcome was the
"InvalidTime" rejection. -/
theorem csirAux_offset_growth (attempts : Nat → Outcome) (remaining : Nat) :
    ∀ idx lastErr st,
      (csirAux attempts remaining idx lastErr st).1.launchTimeOffset
        = st.launchTimeOffset + launchTimeOffsetGrowth *
            (((List.range' idx
                (csirAux attempts remaining idx lastErr st).2.2).countP
              (fun n => attempts n == Outcome.awsErr "InvalidTime") : Nat) : Int) := by
  induction remaining with
  | zero => intro idx lastErr st; simp [csirAux]
  | succ k ih =>
    intro idx lastErr st
    simp only [csirAux]
    cases h : attempts idx with
    | success => simp [h, List.range'_one]
    | awsErr code =>
      simp only [List.range'_succ, List.countP_cons, h]
      rw [ih (idx + 1) (Outcome.awsErr code) (csirStep st code)]
      by_cases hc : code = "InvalidTime"
      · subst hc
        simp only [csirStep, if_pos rfl, beq_self_eq_true, if_true]
        push_cast
        ring
      · have hb : (Outcome.awsErr code == Outcome.awsErr "InvalidTime") = false := by
          simpa using hc
        simp only [csirStep, if_neg hc, hb, Bool.false_eq_true, if_false,
          Nat.add_zero]
    | otherErr m => simp [h, List.range'_one]

/-- Preservation by the tick: a successful `listSpot` run only rewrites the
tracked set; the two clock-skew durations are untouched. -/
theorem listSpot_preserves_offsets (st : SpotState)
    (activeReqs byIdReqs : List spotRequest)
    (describe : List String → List Ec2Inst) (st' : SpotState)
    (out : List Instance)
    (h : listSpot st activeReqs byIdReqs describe = Except.ok (st', out)) :
    st'.launchTimeOffset = st.launchTimeOffset ∧
    st'.approximateClockSkew = st.approximateClockSkew := by
  simp only [listSpot] at h
  split at h
  · cases h
  · split at h
    · cases h
    · split at h
      · cases h
      · rw [Except.ok.injEq, Prod.mk.injEq] at h
        rw [← h.1]
        exact ⟨rfl, rfl⟩

/-- Claim C7: within one run of the launch-offset retry wrapper the final
`launchTimeOffset` equals the initial one plus exactly one 10-second growth
increment per attempt rejected with "InvalidTime" (and nothing for any
other outcome); hence the offset never decreases.  The other operations of
the engine — the reconciliation tick and the clock-skew calibration — never
write `launchTimeOffset`, so it never decreases across the engine's
lifetime. -/
theorem launchTimeOffset_monotone_growth :
    (∀ (attempts : Nat → Outcome) (st : SpotState),
      (csir attempts st).1.launchTimeOffset
        = st.launchTimeOffset + launchTimeOffsetGrowth *
            (((List.range' 0 (csir attempts st).2.2).countP
              (fun n => attempts n == Outcome.awsErr "InvalidTime") : Nat) : Int)) ∧
    (∀ (attempts : Nat → Outcome) (st : SpotState),
      st.launchTimeOffset ≤ (csir attempts st).1.launchTimeOffset) ∧
    (∀ st activeReqs byIdReqs describe st' out,
      listSpot st activeReqs byIdReqs describe = Except.ok (st', out) →
      st'.launchTimeOffset = st.launchTimeOffset) ∧
    (∀ st t cr terms,
      (attemptToApproximateClockSkew st t cr terms).launchTimeOffset
        = st.launchTimeOffset) := by
  refine ⟨fun attempts st => csirAux_offset_growth attempts 6 0 Outcome.success st,
    fun attempts st => ?_, fun st a b d st' out h =>
      (listSpot_preserves_offsets st a b d st' out h).1, fun st t cr terms => ?_⟩
  · show st.launchTimeOffset ≤ (csirAux attempts 6 0 Outcome.success st).1.launchTimeOffset
    rw [csirAux_offset_growth attempts 6 0 Outcome.success st]
    have : (0 : Int) ≤ launchTimeOffsetGrowth *
        (((List.range' 0 (csirAux attempts 6 0 Outcome.success st).2.2).countP
          (fun n => attempts n == Outcome.awsErr "InvalidTime") : Nat) : Int) :=
      mul_nonneg (by norm_num [launchTimeOffsetGrowth]) (Int.natCast_nonneg _)
    omega
  · unfold attemptToApproximateClockSkew
    cases cr with
    | fail => rfl
    | ok t1 => cases cleanupLoop terms <;> rfl

/-- Claim C7, witness: the preservation conjunct applied to a concrete
successful tick. -/
theorem launchTimeOffset_monotone_growth_witness :
    listSpot ⟨[], 3, 7⟩ [] [] (fun _ => []) = Except.ok (⟨[], 3, 7⟩, []) ∧
    (⟨[], 3, 7⟩ : SpotState).launchTimeOffset
      = (⟨[], 3, 7⟩ : SpotState).launchTimeOffset :=
  ⟨rfl, launchTimeOffset_monotone_growth.2.2.1 ⟨[], 3, 7⟩ [] [] (fun _ => [])
    ⟨[], 3, 7⟩ [] rfl⟩

/-- Membership in the string set after an idempotent `add`. -/
theorem mem_addString (s : List String) (x y : String) :
    y ∈ addString s x ↔ y ∈ s ∨ y = x := by
  by_cases h : x ∈ s
  · simp only [addString, if_pos h]
    constructor
    · exact Or.inl
    · rintro (hy | rfl)
      · exact hy
      · exact h
  · simp [addString, if_neg h]

/-- Membership in the two string sets built by the `terminateSpot`
partition pass. -/
theorem partitionIds_mem (x : String) (l : List String) :
    ∀ acc : List String × List String,
      (x ∈ (partitionIds acc l).1 ↔
        x ∈ acc.1 ∨ (x ∈ l ∧ hasSirMarker x = false)) ∧
      (x ∈ (partitionIds acc l).2 ↔
        x ∈ acc.2 ∨ (x ∈ l ∧ hasSirMarker x = true)) := by
  induction l with
  | nil => intro acc; simp [partitionIds]
  | cons i rest ih =>
    intro acc
    by_cases h : hasSirMarker i = true
    · simp only [partitionIds, h, if_true]
      have hrec := ih (acc.1, addString acc.2 i)
      constructor
      · rw [hrec.1]
        simp only [List.mem_cons]
        constructor
        · rintro (hx | ⟨hx, hsw⟩)
          · exact Or.inl hx
          · exact Or.inr ⟨Or.inr hx, hsw⟩
        · rintro (hx | ⟨rfl | hx, hsw⟩)
          · exact Or.inl hx
          · rw [h] at hsw; cases hsw
          · exact Or.inr ⟨hx, hsw⟩
      · rw [hrec.2]
        simp only [mem_addString, List.mem_cons]
        constructor
        · rintro ((hx | rfl) | ⟨hx, hsw⟩)
          · exact Or.inl hx
          · exact Or.inr ⟨Or.inl rfl, h⟩
          · exact Or.inr ⟨Or.inr hx, hsw⟩
        · rintro (hx | ⟨rfl | hx, hsw⟩)
          · exact Or.inl (Or.inl hx)
          · exact Or.inl (Or.inr rfl)
          · exact Or.inr ⟨hx, hsw⟩
    · have hb : hasSirMarker i = false := by simpa using h
      simp only [partitionIds, hb, Bool.false_eq_true, if_false]
      have hrec := ih (addString acc.1 i, acc.2)
      constructor
      · rw [hrec.1]
        simp only [mem_addString, List.mem_cons]
        constructor
        · rintro ((hx | rfl) | ⟨hx, hsw⟩)
          · exact Or.inl hx
          · exact Or.inr ⟨Or.inl rfl, hb⟩
          · exact Or.inr ⟨Or.inr hx, hsw⟩
        · rintro (hx | ⟨rfl | hx, hsw⟩)
          · exact Or.inl (Or.inl hx)
          · exact Or.inl (Or.inr rfl)
          · exact Or.inr ⟨hx, hsw⟩
      · rw [hrec.2]
        simp only [List.mem_cons]
        constructor
        · rintro (hx | ⟨hx, hsw⟩)
          · exact Or.inl hx
          · exact Or.inr ⟨Or.inr hx, hsw⟩
        · rintro (hx | ⟨rfl | hx, hsw⟩)
          · exact Or.inl hx
          · rw [hb] at hsw; cases hsw
          · exact Or.inr ⟨hx, hsw⟩

/-- Claim C8: `terminateSpot` routes every identifier with the reserved
"sir-" marker to the spot-request cancellation call and every identifier
without it to the resource-termination call, with no identifier sent to
both or dropped; on an empty input it issues no remote call at all. -/
theorem terminateSpot_partition :
    terminateSpot [] = [] ∧
    ∀ (ids : List String) (x : String),
      ((∃ l, SpotEffect.cancelSpotRequests l ∈ terminateSpot ids ∧ x ∈ l) ↔
        x ∈ ids ∧ hasSirMarker x = true) ∧
      ((∃ l, SpotEffect.terminateInstances l ∈ terminateSpot ids ∧ x ∈ l) ↔
        x ∈ ids ∧ hasSirMarker x = false) := by
  refine ⟨rfl, fun ids x => ?_⟩
  cases ids with
  | nil => simp [terminateSpot]
  | cons i rest =>
    simp only [terminateSpot, List.isEmpty_cons, Bool.false_eq_true, if_false]
    have hp := partitionIds_mem x (i :: rest) ([], [])
    simp only [List.not_mem_nil, false_or] at hp
    constructor
    · constructor
      · rintro ⟨l, hl, hx⟩
        rcases List.mem_append.mp hl with hA | hB
        · by_cases hc : 0 < (partitionIds ([], []) (i :: rest)).1.length
          · simp [hc] at hA
          · simp [hc] at hA
        · by_cases hc : (partitionIds ([], []) (i :: rest)).2.isEmpty = true
          · simp [hc] at hB
          · simp only [hc, Bool.false_eq_true, if_false, List.mem_singleton] at hB
            cases hB
            exact hp.2.mp hx
      · intro hx
        have hxin : x ∈ (partitionIds ([], []) (i :: rest)).2 := hp.2.mpr hx
        have hne : (partitionIds ([], []) (i :: rest)).2.isEmpty = false := by
          rcases hq : (partitionIds ([], []) (i :: rest)).2 with _ | ⟨a, as⟩
          · rw [hq] at hxin; cases hxin
          · rfl
        refine ⟨(partitionIds ([], []) (i :: rest)).2,
          List.mem_append.mpr (Or.inr ?_), hxin⟩
        simp [hne]
    · constructor
      · rintro ⟨l, hl, hx⟩
        rcases List.mem_append.mp hl with hA | hB
        · by_cases hc : 0 < (partitionIds ([], []) (i :: rest)).1.length
          · simp only [hc, if_true, List.mem_singleton] at hA
            cases hA
            exact hp.1.mp hx
          · simp [hc] at hA
        · by_cases hc : (partitionIds ([], []) (i :: rest)).2.isEmpty = true
          · simp [hc] at hB
          · simp [hc] at hB
      · intro hx
        have hxin : x ∈ (partitionIds ([], []) (i :: rest)).1 := hp.1.mpr hx
        have hpos : 0 < (partitionIds ([], []) (i :: rest)).1.length :=
          List.length_pos.mpr (List.ne_nil_of_mem hxin)
        refine ⟨(partitionIds ([], []) (i :: rest)).1,
          List.mem_append.mpr (Or.inl ?_), hxin⟩
        simp [hpos]

/-- Claim C8, witness: on the input `["sir-a", "i-b"]` the marker-bearing
identifier reaches the cancellation call and the other one the
resource-termination call. -/
theorem terminateSpot_partition_witness :
    (("sir-a" : String) ∈ (["sir-a", "i-b"] : List String) ∧
      hasSirMarker "sir-a" = true) ∧
    (∃ l, SpotEffect.cancelSpotRequests l ∈ terminateSpot ["sir-a", "i-b"] ∧
      ("sir-a" : String) ∈ l) :=
  ⟨⟨by decide, by decide⟩,
    (terminateSpot_partition.2 ["sir-a", "i-b"] "sir-a").1.mpr
      ⟨by decide, by decide⟩⟩

/-- Deleting a request from the set removes its identifier. -/
theorem containsId_deleteReq_self (s : List spotRequest) (r : spotRequest) :
    containsId (deleteReq s r) r.SpotRequestID = false := by
  simp only [containsId, deleteReq, List.any_eq_false, List.mem_filter,
    bne_iff_ne, beq_iff_eq]
  tauto

/-- Deleting never introduces an identifier. -/
theorem containsId_deleteReq_mono (s : List spotRequest) (r : spotRequest)
    (id : String) (h : containsId s id = false) :
    containsId (deleteReq s r) id = false := by
  simp only [containsId, List.any_eq_false, beq_iff_eq] at h ⊢
  intro x hx
  exact h x (List.mem_of_mem_filter hx)

/-- The by-identifier processing loop never adds to the tracked set: an
identifier absent before the loop is absent after it. -/
theorem processByIdM_tracked_mono (l : List spotRequest) :
    ∀ (acc acc2 : ByIdAcc), processByIdM l acc = Except.ok acc2 →
      ∀ id, containsId acc.tracked id = false →
        containsId acc2.tracked id = false := by
  induction l with
  | nil =>
    intro acc acc2 h id hid
    simp only [processByIdM, Except.ok.injEq] at h
    rw [← h]; exact hid
  | cons a rest ih =>
    intro acc acc2 h id hid
    simp only [processByIdM] at h
    cases hc : a.StatusCode with
    | none => rw [hc] at h; cases h
    | some code =>
      rw [hc] at h
      refine ih _ _ h id ?_
      by_cases hl : a.State = "active" ∨ a.State = "open"
      · simpa [hl] using hid
      · simpa [hl] using containsId_deleteReq_mono acc.tracked a id hid

/-- Every request the by-identifier loop processed in a state other than
"active"/"open" is absent from the tracked set at the end of the loop. -/
theorem processByIdM_terminal_removed (l : List spotRequest) :
    ∀ (acc acc2 : ByIdAcc), processByIdM l acc = Except.ok acc2 →
      ∀ r ∈ l, ¬(r.State = "active" ∨ r.State = "open") →
        containsId acc2.tracked r.SpotRequestID = false := by
  induction l with
  | nil => intro acc acc2 _ r hr; cases hr
  | cons a rest ih =>
    intro acc acc2 h r hr hterm
    simp only [processByIdM] at h
    cases hc : a.StatusCode with
    | none => rw [hc] at h; cases h
    | some code =>
      rw [hc] at h
      rcases List.mem_cons.mp hr with rfl | hr'
      · refine processByIdM_tracked_mono rest _ _ h r.SpotRequestID ?_
        simpa [hterm] using containsId_deleteReq_self acc.tracked r
      · exact ih _ _ h r hr' hterm

/-- Claim C2: after a successful reconciliation tick, every request the
targeted by-identifier lookup returned with a state other than "open" or
"active" has been removed from the tracked set — the tick never retains an
identifier it observed in a terminal state. -/
theorem listSpot_terminal_removed (st : SpotState)
    (activeReqs byIdReqs : List spotRequest)
    (describe : List String → List Ec2Inst) (st' : SpotState)
    (out : List Instance)
    (h : listSpot st activeReqs byIdReqs describe = Except.ok (st', out))
    (r : spotRequest) (hr : r ∈ byIdReturned st activeReqs byIdReqs)
    (h1 : r.State ≠ "open") (h2 : r.State ≠ "active") :
    containsId st'.trackedReqs r.SpotRequestID = false := by
  simp only [listSpot] at h
  split at h
  · cases h
  · split at h
    · cases h
    · split at h
      · cases h
      · rename_i a1 notify1 hca a2 acc hpb a3 u hem
        rw [Except.ok.injEq, Prod.mk.injEq] at h
        rw [← h.1]
        exact processByIdM_terminal_removed _ _ _ hpb r hr
          (by rintro (hs | hs) <;> [exact h2 hs; exact h1 hs])

/-- Claim C2, witness: a tick that tracks the open request "sir-1", sees an
empty active list and is told by the targeted lookup that "sir-1" is now
"closed" removes it from the tracked set. -/
theorem listSpot_terminal_removed_witness :
    listSpot ⟨[⟨"sir-1", "open", some "pending-evaluation", some "m", none, 5⟩], 0, 0⟩
        [] [⟨"sir-1", "closed", some "instance-terminated-by-user", some "m", none, 5⟩]
        (fun _ => []) = Except.ok (⟨[], 0, 0⟩, []) ∧
    (⟨"sir-1", "closed", some "instance-terminated-by-user", some "m", none, 5⟩ : spotRequest)
      ∈ byIdReturned
        ⟨[⟨"sir-1", "open", some "pending-evaluation", some "m", none, 5⟩], 0, 0⟩
        [] [⟨"sir-1", "closed", some "instance-terminated-by-user", some "m", none, 5⟩] ∧
    containsId (⟨[], 0, 0⟩ : SpotState).trackedReqs "sir-1" = false :=
  ⟨rfl, by decide,
    listSpot_terminal_removed
      ⟨[⟨"sir-1", "open", some "pending-evaluation", some "m", none, 5⟩], 0, 0⟩
      [] [⟨"sir-1", "closed", some "instance-terminated-by-user", some "m", none, 5⟩]
      (fun _ => []) ⟨[], 0, 0⟩ [] rfl
      ⟨"sir-1", "closed", some "instance-terminated-by-user", some "m", none, 5⟩
      (by decide) (by decide) (by decide)⟩

/-- The placeholder component built by the tracked-request pass: one entry
per tracked request without a resolved instance, in order. -/
theorem splitTracked_snd (l : List spotRequest) :
    ∀ acc : List String × List Instance,
      (splitTracked acc l).2 = acc.2 ++ l.filterMap (fun r =>
        match r.InstanceID with
        | some _ => none
        | none => some (pendingInstanceOf r)) := by
  induction l with
  | nil => intro acc; simp [splitTracked]
  | cons r rest ih =>
    intro acc
    cases hio : r.InstanceID with
    | some iid => simp [splitTracked, hio, ih, List.filterMap_cons]
    | none => simp [splitTracked, hio, ih, List.filterMap_cons]

/-- The instance-id component built by the tracked-request pass: when the
resolved instance ids are pairwise distinct, the string set is exactly the
list of resolved ids in order. -/
theorem splitTracked_fst (l : List spotRequest) :
    ∀ acc : List String × List Instance,
      (acc.1 ++ l.filterMap (fun r => r.InstanceID)).Nodup →
      (splitTracked acc l).1 = acc.1 ++ l.filterMap (fun r => r.InstanceID) := by
  induction l with
  | nil => intro acc _; simp [splitTracked]
  | cons r rest ih =>
    intro acc h
    cases hio : r.InstanceID with
    | none =>
      rw [List.filterMap_cons] at h ⊢
      simp only [hio] at h ⊢
      simpa [splitTracked, hio] using
        ih (acc.1, acc.2 ++ [pendingInstanceOf r]) (by simpa using h)
    | some iid =>
      rw [List.filterMap_cons] at h ⊢
      simp only [hio] at h ⊢
      have hnm : iid ∉ acc.1 := by
        intro hmem
        rcases List.nodup_append.mp h with ⟨-, -, hdisj⟩
        exact hdisj hmem (List.mem_cons_self _ _)
      have hadd : addString acc.1 iid = acc.1 ++ [iid] := by
        simp [addString, hnm]
      have h' : ((acc.1 ++ [iid]) ++ rest.filterMap (fun r => r.InstanceID)).Nodup := by
        simpa [List.append_assoc] using h
      have := ih (addString acc.1 iid, acc.2) (by simpa [hadd] using h')
      simp only [splitTracked, hio]
      rw [this, hadd]
      simp [List.append_assoc]

/-- Claim C5: the output of a successful tick-building pass is exactly the
converted real instances whose described state is neither "terminated" nor
"shutting-down" — one per tracked request with a resolved instance id —
followed by exactly one placeholder per tracked request without an
instance id, the placeholder carrying the request id as its handle id, the
request creation time as its launch time and the pending state.  `oracle`
gives the described state of each queried instance id; the hypothesis says
the remote describe call answered the query pointwise. -/
theorem buildInstanceList_spec (tracked : List spotRequest)
    (oracle : String → Ec2Inst) (describe : List String → List Ec2Inst)
    (hnodup : (tracked.filterMap (fun r => r.InstanceID)).Nodup)
    (hresp : describe (runningIdsOf tracked) = (runningIdsOf tracked).map oracle) :
    buildInstanceListFromTrackedReqs tracked describe =
      ((tracked.filterMap (fun r => r.InstanceID)).filter
          (fun iid => nonTerminalEc2 (oracle iid))).map
        (fun iid => newInstanceFromEc2 (oracle iid)) ++
      tracked.filterMap (fun r =>
        match r.InstanceID with
        | some _ => none
        | none => some (pendingInstanceOf r)) := by
  have hfst : (splitTracked ([], []) tracked).1
      = tracked.filterMap (fun r => r.InstanceID) := by
    simpa using splitTracked_fst tracked ([], []) (by simpa using hnodup)
  have hsnd : (splitTracked ([], []) tracked).2
      = tracked.filterMap (fun r =>
          match r.InstanceID with
          | some _ => none
          | none => some (pendingInstanceOf r)) := by
    simpa using splitTracked_snd tracked ([], [])
  have hresp' : describe (splitTracked ([], []) tracked).1
      = (splitTracked ([], []) tracked).1.map oracle := hresp
  have hstep : buildInstanceListFromTrackedReqs tracked describe
      = ((describe (splitTracked ([], []) tracked).1).filter
          nonTerminalEc2).map newInstanceFromEc2
        ++ (splitTracked ([], []) tracked).2 := rfl
  rw [hstep, hresp', hfst, hsnd, List.filter_map, List.map_map]
  rfl

/-- Claim C5, witness: two tracked requests, one fulfilled by the running
instance "i-1" and one pending; the described state of "i-1" is "running",
so the output is the real handle for "i-1" followed by the placeholder for
"sir-b". -/
theorem buildInstanceList_spec_witness :
    (([⟨"sir-a", "active", some "fulfilled", some "m", some "i-1", 100⟩,
       ⟨"sir-b", "open", some "pending-evaluation", some "m", none, 200⟩] :
        List spotRequest).filterMap (fun r => r.InstanceID)).Nodup ∧
    buildInstanceListFromTrackedReqs
        [⟨"sir-a", "active", some "fulfilled", some "m", some "i-1", 100⟩,
         ⟨"sir-b", "open", some "pending-evaluation", some "m", none, 200⟩]
        (fun ids => ids.map (fun s =>
          (⟨s, 50, if s = "i-1" then "running" else "terminated"⟩ : Ec2Inst)))
      = [⟨"i-1", 50, "i-1", InstanceState.Running⟩,
         ⟨"sir-b", 200, "sir-b", InstanceState.SpotRequestPendingAWS⟩] := by
  refine ⟨by decide, ?_⟩
  rw [buildInstanceList_spec
      [⟨"sir-a", "active", some "fulfilled", some "m", some "i-1", 100⟩,
       ⟨"sir-b", "open", some "pending-evaluation", some "m", none, 200⟩]
      (fun s => (⟨s, 50, if s = "i-1" then "running" else "terminated"⟩ : Ec2Inst))
      (fun ids => ids.map (fun s =>
        (⟨s, 50, if s = "i-1" then "running" else "terminated"⟩ : Ec2Inst)))
      (by decide) rfl]
  decide

end AwsSpot
